import Mathlib

/-!
Urban mobility dashboard (`nyc-taxi-app/frontend/script.js`)

A shallow embedding of the dashboard script: the three module-level variables
(`allTrips`, `tripDistanceChart`, `passengerCountChart`), the load handler, the
filter-button handler and the three renderers, as state-passing functions over an
explicit application state, followed by the properties proved about them.

Host facilities the script calls but does not define are modelled as follows.

* JavaScript numbers: `JSNum` (NaN, the two infinities, and finite values carried as
  rationals; every finite double is a rational and the relational operators agree
  with the order of the rationals on them; the two zeros are identified).
* `parseFloat` and the number-to-string conversion of template literals are taken as
  parameters (`parseFloat`, `numToString`).
* Property order of ordinary objects (`Object.keys`, `Object.values`): array-index
  keys in ascending numeric order, then the other keys in creation order.
* The DOM table body is the list of its rows, a row being the markup assigned to its
  `innerHTML`; the cells the host makes of that markup are given by `rowCells`.
* Chart.js: `new Chart` registers a live instance with a fresh identity, `destroy`
  removes it from the live instances.
-/

namespace UrbanMobility

/-! ## JavaScript numbers and the `>=` operator -/

/-- A JavaScript number value. -/
inductive JSNum where
  | nan
  | negInf
  | fin (q : ℚ)
  | posInf
  deriving DecidableEq

/-- The abstract operation `Number::lessThan x y` of ECMAScript: `none` is the
`undefined` result produced when an operand is NaN. -/
def JSNum.lessThan : JSNum → JSNum → Option Bool
  | .nan, _ => none
  | _, .nan => none
  | .posInf, _ => some false
  | .negInf, .negInf => some false
  | .fin _, .negInf => some false
  | .negInf, _ => some true
  | .fin _, .posInf => some true
  | .fin x, .fin y => some (decide (x < y))

/-- The operator `a >= b` on numbers: evaluate `a < b`; the result is `false` when
that comparison is `true` or `undefined`, and `true` otherwise. -/
def jsGe (a b : JSNum) : Bool :=
  match JSNum.lessThan a b with
  | some false => true
  | _ => false

/-- The extended rational a number value denotes; NaN denotes none. -/
def JSNum.value? : JSNum → Option (WithBot (WithTop ℚ))
  | .nan => none
  | .negInf => some ⊥
  | .fin q => some ((q : WithTop ℚ) : WithBot (WithTop ℚ))
  | .posInf => some ((⊤ : WithTop ℚ) : WithBot (WithTop ℚ))

/-! ## Data model -/

/-- A value that can stand for a trip `id`: a number or a string. -/
inductive JSVal where
  | num (n : JSNum)
  | str (s : String)
  deriving DecidableEq

/-- A trip record as returned by `/api/trips`. -/
structure Trip where
  id : JSVal
  pickup_datetime : String
  trip_distance : JSNum
  trip_duration : JSNum
  passenger_count : Nat
  deriving DecidableEq

/-- A JSON value that is not an array. -/
inductive NonArray where
  | null
  | bool (b : Bool)
  | number (n : JSNum)
  | string (s : String)
  | object (fields : List (String × String))
  deriving DecidableEq

/-- What `response.json()` can resolve to, and hence what `allTrips` can hold: an
array of trip records; an array of trip records and `null` elements with at least
one `null`, given as the records before the first `null` and the elements after it;
or a JSON value that is not an array. Payloads whose records lack a field or carry a
field of another type are not covered. -/
inductive JSData where
  | array (trips : List Trip)
  | arrayWithNull (before : List Trip) (rest : List (Option Trip))
  | nonArray (v : NonArray)
  deriving DecidableEq

/-- An exception or rejection reason: a `TypeError` raised by a statement of the
script (an array method called on a value that has none, a property read on `null`),
whose message text depends on the engine and is left out, or the reason `fetch` or
`response.json()` rejected with. -/
inductive JSError where
  | typeError
  | rejected (reason : String)
  deriving DecidableEq

/-- One call of `console.error(label, error)`. -/
structure LogEntry where
  label : String
  error : JSError
  deriving DecidableEq

/-! ## Host facilities taken as parameters -/

/-- The built-ins the script relies on whose results depend on floating-point
formatting and parsing: `parseFloat` on the text of the `minDistance` input, and the
conversion of a number to a string inside a template literal. -/
structure Host where
  parseFloat : String → JSNum
  numToString : JSNum → String

/-- The string conversion of a template-literal substitution. -/
def jsToString (host : Host) : JSVal → String
  | .num n => host.numToString n
  | .str s => s

/-! ## Ordinary objects keyed by numbers (the `reduce` accumulator) -/

/-- An ordinary object whose property keys are the canonical strings of non-negative
integers; a key is represented by the integer, properties are listed in creation
order. -/
abbrev JSObject := List (Nat × Nat)

/-- The value of `acc[k]`: `none` is `undefined`. -/
def JSObject.get (o : JSObject) (k : Nat) : Option Nat :=
  o.lookup k

/-- The assignment `acc[k] = v`: an existing property keeps its position, a new
property is created after all the existing ones. -/
def JSObject.set (o : JSObject) (k v : Nat) : JSObject :=
  if o.any (fun p => p.1 == k) then
    o.map (fun p => if p.1 = k then (k, v) else p)
  else
    o ++ [(k, v)]

/-- An array index is a canonical numeric key in the range `0 .. 2^32 - 2`. -/
def isArrayIndex (k : Nat) : Bool :=
  decide (k < 4294967295)

/-- The order of `OrdinaryOwnPropertyKeys`: array indices in ascending numeric
order, then the remaining keys in ascending chronological order of creation. -/
def JSObject.ownKeys (o : JSObject) : List Nat :=
  ((o.map Prod.fst).filter isArrayIndex).insertionSort (fun a b => a ≤ b)
    ++ (o.map Prod.fst).filter (fun k => !isArrayIndex k)

/-- The result of `Object.keys(o)`. -/
def objectKeys (o : JSObject) : List Nat :=
  o.ownKeys

/-- The result of `Object.values(o)`: the value of each own key, in key order. -/
def objectValues (o : JSObject) : List Nat :=
  o.ownKeys.filterMap o.get

/-- The expression `x || 0` for `x` a count or `undefined`. -/
def orZero : Option Nat → Nat
  | none => 0
  | some v => if v = 0 then 0 else v

/-- The reducer callback: `acc[trip.passenger_count] =
(acc[trip.passenger_count] || 0) + 1; return acc`. -/
def countStep (acc : JSObject) (trip : Trip) : JSObject :=
  acc.set trip.passenger_count (orZero (acc.get trip.passenger_count) + 1)

/-- The accumulator `passengerCounts` built by `trips.reduce(..., {})`. -/
def passengerCounts (trips : List Trip) : JSObject :=
  trips.foldl countStep []

/-! ## Application state -/

/-- The two drawable surfaces, named by their element ids. -/
inductive Canvas where
  | tripDistanceChart
  | passengerCountChart
  deriving DecidableEq

/-- A point of the scatter dataset. -/
structure Point where
  x : JSNum
  y : JSNum
  deriving DecidableEq

/-- The `type` and `data` of the configuration handed to `new Chart`. -/
inductive ChartConfig where
  | scatter (data : List Point)
  | bar (labels : List Nat) (data : List Nat)
  deriving DecidableEq

/-- A chart instance that has been created and not destroyed. -/
structure ChartInstance where
  id : Nat
  canvas : Canvas
  config : ChartConfig
  deriving DecidableEq

/-- The module-level variables together with the parts of the host the script acts
on: the rows of `#tripsTable tbody`, the live chart instances, the identity the next
chart instance receives, and the messages written with `console.error`. -/
structure AppState where
  allTrips : JSData
  tripDistanceChart : Option Nat
  passengerCountChart : Option Nat
  tableBody : List String
  charts : List ChartInstance
  nextChartId : Nat
  console : List LogEntry
  deriving DecidableEq

/-- The state when the script has been evaluated and nothing has run yet; the table
body holds whatever the page's markup put there. -/
def initialState (tableBody : List String) : AppState :=
  { allTrips := .array [], tripDistanceChart := none, passengerCountChart := none,
    tableBody := tableBody, charts := [], nextChartId := 0, console := [] }

/-- The state a call leaves behind and the exception it threw, if any. -/
structure Outcome where
  state : AppState
  thrown : Option JSError

/-- Sequencing of statements: a thrown exception skips what follows. -/
def Outcome.andThen (r : Outcome) (f : AppState → Outcome) : Outcome :=
  match r.thrown with
  | none => f r.state
  | some _ => r

/-! ## Renderers -/

/-- The markup assigned to `row.innerHTML`. -/
def rowHTML (host : Host) (trip : Trip) : String :=
  "\n            <td>" ++ jsToString host trip.id ++
  "</td>\n            <td>" ++ trip.pickup_datetime ++
  "</td>\n            <td>" ++ host.numToString trip.trip_distance ++
  "</td>\n        "

/-- The body of the `forEach` callback of `populateTable`: create a row, set its
markup, append it to the table body. -/
def appendRow (host : Host) (s : AppState) (trip : Trip) : AppState :=
  { s with tableBody := s.tableBody ++ [rowHTML host trip] }

/-- The function `populateTable(trips)`. On a value that is not an array
`trips.forEach` throws once the body has been cleared; on an array with a `null`
element the callback throws at `trip.id` of the first `null`, the rows of the
records before it having been appended. -/
def populateTable (host : Host) (trips : JSData) (s : AppState) : Outcome :=
  let s1 := { s with tableBody := [] }
  match trips with
  | .nonArray _ => ⟨s1, some .typeError⟩
  | .arrayWithNull before _ => ⟨before.foldl (appendRow host) s1, some .typeError⟩
  | .array ts => ⟨ts.foldl (appendRow host) s1, none⟩

/-- The method `chart.destroy()` on the instance with identity `h`. -/
def destroyChart (h : Nat) (s : AppState) : AppState :=
  { s with charts := s.charts.filter (fun c => c.id != h) }

/-- The expression `new Chart(ctx, config)`: the state with the new live instance,
and the identity of that instance. -/
def newChart (canvas : Canvas) (config : ChartConfig) (s : AppState) : AppState × Nat :=
  ({ s with charts := s.charts ++ [⟨s.nextChartId, canvas, config⟩],
            nextChartId := s.nextChartId + 1 }, s.nextChartId)

/-- The scatter dataset `trips.map(t => ({x: t.trip_distance, y: t.trip_duration}))`. -/
def scatterData (trips : List Trip) : List Point :=
  trips.map (fun t => ⟨t.trip_distance, t.trip_duration⟩)

/-- The function `createTripDistanceChart(trips)`. -/
def createTripDistanceChart (trips : JSData) (s : AppState) : Outcome :=
  let s1 := match s.tripDistanceChart with
    | some h => destroyChart h s
    | none => s
  match trips with
  | .nonArray _ => ⟨s1, some .typeError⟩
  | .arrayWithNull _ _ => ⟨s1, some .typeError⟩
  | .array ts =>
    let r := newChart .tripDistanceChart (.scatter (scatterData ts)) s1
    ⟨{ r.1 with tripDistanceChart := some r.2 }, none⟩

/-- The function `createPassengerCountChart(trips)`. -/
def createPassengerCountChart (trips : JSData) (s : AppState) : Outcome :=
  let s1 := match s.passengerCountChart with
    | some h => destroyChart h s
    | none => s
  match trips with
  | .nonArray _ => ⟨s1, some .typeError⟩
  | .arrayWithNull _ _ => ⟨s1, some .typeError⟩
  | .array ts =>
    let passengerCounts := passengerCounts ts
    let r := newChart .passengerCountChart
      (.bar (objectKeys passengerCounts) (objectValues passengerCounts)) s1
    ⟨{ r.1 with passengerCountChart := some r.2 }, none⟩

/-- The three consecutive calls `populateTable(trips); createTripDistanceChart(trips);
createPassengerCountChart(trips);` that both handlers end with. -/
def renderAll (host : Host) (trips : JSData) (s : AppState) : Outcome :=
  (populateTable host trips s).andThen fun s1 =>
    (createTripDistanceChart trips s1).andThen fun s2 =>
      createPassengerCountChart trips s2

/-! ## Data loader -/

/-- How the chain `fetch(...).then(response => response.json())` settles: `fetch`
rejects, `response.json()` rejects, or the body parses to `data`. -/
inductive FetchResult where
  | networkError (reason : String)
  | invalidJson (reason : String)
  | json (data : JSData)

/-- The call `console.error('Error fetching data:', error)`. -/
def consoleError (error : JSError) (s : AppState) : AppState :=
  { s with console := s.console ++ [⟨"Error fetching data:", error⟩] }

/-- The callback `data => { allTrips = data; populateTable(allTrips); ... }`. -/
def onData (host : Host) (data : JSData) (s : AppState) : Outcome :=
  let s1 := { s with allTrips := data }
  renderAll host s1.allTrips s1

/-- The promise chain of the `DOMContentLoaded` handler, run to completion: a
rejection of `fetch`, of `response.json()` or of the data callback reaches `.catch`. -/
def loadTrips (host : Host) (r : FetchResult) (s : AppState) : AppState :=
  match r with
  | .networkError e => consoleError (.rejected e) s
  | .invalidJson e => consoleError (.rejected e) s
  | .json data =>
    let o := onData host data s
    match o.thrown with
    | none => o.state
    | some e => consoleError e o.state

/-! ## Filter controller -/

/-- The expression `allTrips.filter(trip => trip.trip_distance >= minDistance)`. -/
def filteredTrips (minDistance : JSNum) (allTrips : List Trip) : List Trip :=
  allTrips.filter (fun trip => jsGe trip.trip_distance minDistance)

/-- The click handler of `filterBtn`, `value` being the text of the `minDistance`
input. When `allTrips` is not an array, `allTrips.filter` throws; when it is an array
with a `null` element, the callback throws at `trip.trip_distance` of that element;
in both cases nothing else runs. -/
def filterBtnClick (host : Host) (value : String) (s : AppState) : AppState :=
  let minDistance := host.parseFloat value
  match s.allTrips with
  | .nonArray _ => s
  | .arrayWithNull _ _ => s
  | .array trips => (renderAll host (.array (filteredTrips minDistance trips)) s).state

/-! ## Runs of the application -/

/-- What can happen to the application: the load settles, the filter button is
clicked, or one of the chart renderers is called on a sequence of trips. -/
inductive Action where
  | load (r : FetchResult)
  | filter (value : String)
  | renderDistance (trips : List Trip)
  | renderPassenger (trips : List Trip)

/-- The effect of one action. -/
def step (host : Host) (s : AppState) : Action → AppState
  | .load r => loadTrips host r s
  | .filter value => filterBtnClick host value s
  | .renderDistance trips => (createTripDistanceChart (.array trips) s).state
  | .renderPassenger trips => (createPassengerCountChart (.array trips) s).state

/-- The state after a sequence of actions. -/
def run (host : Host) (s : AppState) (actions : List Action) : AppState :=
  actions.foldl (step host) s

/-- The value of the handle variable of a view. -/
def handleOf (c : Canvas) (s : AppState) : Option Nat :=
  match c with
  | .tripDistanceChart => s.tripDistanceChart
  | .passengerCountChart => s.passengerCountChart

/-- The live chart instances drawn on a canvas. -/
def liveOn (c : Canvas) (s : AppState) : List ChartInstance :=
  s.charts.filter (fun i => decide (i.canvas = c))

/-- What the three views show: the rows of the table and, for each canvas, the
configurations of the live charts drawn on it. -/
def viewOf (s : AppState) : List String × List ChartConfig × List ChartConfig :=
  (s.tableBody,
   (liveOn .tripDistanceChart s).map ChartInstance.config,
   (liveOn .passengerCountChart s).map ChartInstance.config)

/-! ## Cells of a row as the host parses its markup

Assigning `row.innerHTML` runs the HTML fragment parser with the row as context. The
part of it modelled here covers markup made of text, `<td>` and `</td>`: any other
tag, a character reference, a carriage return, a NUL character, text other than
white space between cells, or an unfinished tag gives `none`. -/

/-- A character that the tokenizer passes on unchanged as text. -/
def plainChar (c : Char) : Bool :=
  !(c == '<') && !(c == '&') && !(c.toNat == 13) && !(c.toNat == 0)

/-- A text made of characters passed on unchanged. -/
def plainText (text : String) : Bool :=
  text.data.all plainChar

/-- White space of HTML other than the carriage return: space, tab, line feed, form
feed. -/
def isHtmlSpace (c : Char) : Bool :=
  c == ' ' || c.toNat == 9 || c.toNat == 10 || c.toNat == 12

/-- Where the tokenizer stands: in text, or inside `<td>` or `</td>` after the
characters read so far. -/
inductive TagState where
  | data
  | lt
  | ltT
  | ltTd
  | ltSlash
  | ltSlashT
  | ltSlashTd
  deriving DecidableEq

/-- The state of the parser of a row: the tokenizer state, the text of the cell that
is open (`none` between cells), and the texts of the cells closed so far. -/
structure RowParse where
  tag : TagState
  cell : Option (List Char)
  cells : List String
  deriving DecidableEq

/-- A start tag `<td>`: between cells it opens a cell; inside a cell it closes that
cell and opens the next one. -/
def RowParse.startTd (p : RowParse) : RowParse :=
  match p.cell with
  | none => { tag := .data, cell := some [], cells := p.cells }
  | some text => { tag := .data, cell := some [], cells := p.cells ++ [String.mk text] }

/-- An end tag `</td>`: inside a cell it closes the cell; between cells it is
ignored. -/
def RowParse.endTd (p : RowParse) : RowParse :=
  match p.cell with
  | none => { tag := .data, cell := none, cells := p.cells }
  | some text => { tag := .data, cell := none, cells := p.cells ++ [String.mk text] }

/-- A character of text: inside a cell it is added to the text of the cell; between
cells white space makes no cell and other text is not covered. -/
def RowParse.text (p : RowParse) (c : Char) : Option RowParse :=
  match p.cell with
  | some text => some { p with cell := some (text ++ [c]) }
  | none => if isHtmlSpace c then some p else none

/-- One character of markup. -/
def RowParse.feed (p : RowParse) (c : Char) : Option RowParse :=
  match p.tag with
  | .data =>
    if c = '<' then some { p with tag := .lt }
    else if plainChar c then p.text c
    else none
  | .lt =>
    if c = 't' then some { p with tag := .ltT }
    else if c = '/' then some { p with tag := .ltSlash }
    else none
  | .ltT => if c = 'd' then some { p with tag := .ltTd } else none
  | .ltTd => if c = '>' then some p.startTd else none
  | .ltSlash => if c = 't' then some { p with tag := .ltSlashT } else none
  | .ltSlashT => if c = 'd' then some { p with tag := .ltSlashTd } else none
  | .ltSlashTd => if c = '>' then some p.endTd else none

/-- All the characters of the markup, in order. -/
def RowParse.feedAll (p : RowParse) : List Char → Option RowParse
  | [] => some p
  | c :: cs =>
    match p.feed c with
    | none => none
    | some q => q.feedAll cs

/-- The end of the markup: a cell still open is closed. -/
def RowParse.finish (p : RowParse) : Option (List String) :=
  match p.tag with
  | .data =>
    match p.cell with
    | none => some p.cells
    | some text => some (p.cells ++ [String.mk text])
  | _ => none

/-- The texts of the cells of a row whose `innerHTML` has been set to `markup`. -/
def rowCells (markup : String) : Option (List String) :=
  match RowParse.feedAll ⟨.data, none, []⟩ markup.data with
  | none => none
  | some p => p.finish

/-- The claimed content of a row: its cells are the id, the pickup time and the
distance of the record, in that order. -/
def Displays (host : Host) (markup : String) (trip : Trip) : Prop :=
  rowCells markup
    = some [jsToString host trip.id, trip.pickup_datetime,
        host.numToString trip.trip_distance]

/-! ## Concrete data of the end-to-end scenarios -/

/-- A trip whose id holds markup. -/
def markupTrip : Trip :=
  { id := .str "<td>x</td>", pickup_datetime := "2016-01-01 00:30:00",
    trip_distance := .fin 2, trip_duration := .fin 120, passenger_count := 1 }

/-- The number formatting of the scenarios, given on the values they use. -/
def scenarioNumToString : JSNum → String
  | .nan => "NaN"
  | .negInf => "-Infinity"
  | .posInf => "Infinity"
  | .fin q => if q = 2 then "2" else if q = 5 then "5" else "0.5"

/-- A host whose `parseFloat` reads the text `2.0` as `2` and every other text as
NaN. -/
def scenarioHost : Host :=
  { parseFloat := fun value => if value = "2.0" then .fin 2 else .nan,
    numToString := scenarioNumToString }

/-- A host whose `parseFloat` reads every text as NaN. -/
def nanHost : Host :=
  { parseFloat := fun _ => .nan, numToString := scenarioNumToString }

/-- The first trip of the scenario: distance `0.5`, one passenger. -/
def tripA : Trip :=
  { id := .str "a", pickup_datetime := "2016-01-01 00:00:00",
    trip_distance := .fin (1 / 2), trip_duration := .fin 300, passenger_count := 1 }

/-- The second trip of the scenario: distance `2.0`, two passengers. -/
def tripB : Trip :=
  { id := .str "b", pickup_datetime := "2016-01-01 00:10:00",
    trip_distance := .fin 2, trip_duration := .fin 600, passenger_count := 2 }

/-- The third trip of the scenario: distance `5.0`, one passenger. -/
def tripC : Trip :=
  { id := .str "c", pickup_datetime := "2016-01-01 00:20:00",
    trip_distance := .fin 5, trip_duration := .fin 900, passenger_count := 1 }

/-- The state after the three trips of the scenario have been loaded. -/
def scenarioState : AppState :=
  loadTrips scenarioHost (.json (.array [tripA, tripB, tripC])) (initialState [])

/-! ## Auxiliary notions used by the statements -/

/-- The keys of an object, in creation order. -/
def JSObject.created (o : JSObject) : List Nat :=
  o.map Prod.fst

/-- The passenger counts of a sequence of trips, in input order. -/
def passengerKeys (trips : List Trip) : List Nat :=
  trips.map Trip.passenger_count

/-- The claimed order of the labels: a label precedes another exactly when its first
record comes first in the input. -/
def FirstSeenOrder (trips : List Trip) : Prop :=
  ∀ a b, a ∈ objectKeys (passengerCounts trips) → b ∈ objectKeys (passengerCounts trips) →
    (List.indexOf a (objectKeys (passengerCounts trips))
        < List.indexOf b (objectKeys (passengerCounts trips))
      ↔ List.indexOf a (passengerKeys trips) < List.indexOf b (passengerKeys trips))

/-- The live instances after the old one of a view, if any, has been destroyed and a
new one created. -/
def replaced (handle : Option Nat) (inst : ChartInstance) (charts : List ChartInstance) :
    List ChartInstance :=
  (match handle with
    | some h => charts.filter (fun c => c.id != h)
    | none => charts) ++ [inst]

/-- The state of a view is consistent: without a handle there is no live instance on
its canvas, with a handle there is exactly one and the handle references it. -/
def ViewOK (c : Canvas) (s : AppState) : Prop :=
  match handleOf c s with
  | none => liveOn c s = []
  | some h => ∃ inst, liveOn c s = [inst] ∧ inst.id = h

/-- The invariant of the chart bookkeeping: identities of live instances are below
the next identity and pairwise distinct, and both views are consistent. -/
def WellFormed (s : AppState) : Prop :=
  (∀ i ∈ s.charts, i.id < s.nextChartId)
  ∧ (s.charts.map ChartInstance.id).Nodup
  ∧ ∀ c, ViewOK c s

/-- The action that renders the view of a canvas on a sequence of trips. -/
def renderAction (c : Canvas) (trips : List Trip) : Action :=
  match c with
  | .tripDistanceChart => .renderDistance trips
  | .passengerCountChart => .renderPassenger trips

/-! ## The comparison operator -/

/-- Against NaN `>=` is false on both sides. -/
theorem jsGe_nan_right (a : JSNum) : jsGe a .nan = false := by
  cases a <;> rfl

/-- The operator `>=` holds exactly when both operands are numeric and the value of
the left one is at least the value of the right one. -/
theorem jsGe_iff_value_le (a b : JSNum) :
    jsGe a b = true ↔ ∃ x y, a.value? = some x ∧ b.value? = some y ∧ y ≤ x := by
  cases a <;> cases b <;> simp [jsGe, JSNum.lessThan, JSNum.value?]
  case fin.fin x y =>
    by_cases h : x < y
    · simp [h]
    · simp [h, not_lt.mp h]

/-! ## Filter controller -/

/-- On an array the three renderers run to the end without throwing. -/
theorem renderAll_array_thrown (host : Host) (ts : List Trip) (s : AppState) :
    (renderAll host (.array ts) s).thrown = none := by
  simp [renderAll, populateTable, createTripDistanceChart, createPassengerCountChart,
    Outcome.andThen]

/-- The click handler on a state whose `allTrips` is an array. -/
theorem filterBtnClick_array (host : Host) (value : String) (s : AppState)
    (S : List Trip) (hS : s.allTrips = .array S) :
    filterBtnClick host value s
      = (renderAll host (.array (filteredTrips (host.parseFloat value) S)) s).state := by
  simp [filterBtnClick, hS]

/-- Claim C1. For every sequence `S` held in `allTrips` and every numeric threshold
(the value `y` of what `parseFloat` returns), the sequence the click handler passes to
the three renderers is a subsequence of `S` (original relative order), contains
exactly the records of `S` whose distance is at least the threshold (bound
included), and keeps each of them with its multiplicity in `S`. -/
theorem filter_keeps_exactly_distance_ge (host : Host) (value : String) (s : AppState)
    (S : List Trip) (y : WithBot (WithTop ℚ))
    (hS : s.allTrips = .array S)
    (hnum : (host.parseFloat value).value? = some y) :
    filterBtnClick host value s
        = (renderAll host (.array (filteredTrips (host.parseFloat value) S)) s).state
    ∧ (filteredTrips (host.parseFloat value) S).Sublist S
    ∧ (∀ r, r ∈ filteredTrips (host.parseFloat value) S
          ↔ r ∈ S ∧ ∃ x, r.trip_distance.value? = some x ∧ y ≤ x)
    ∧ (∀ r, (∃ x, r.trip_distance.value? = some x ∧ y ≤ x) →
          (filteredTrips (host.parseFloat value) S).count r = S.count r) := by
  have key : ∀ r : Trip, jsGe r.trip_distance (host.parseFloat value) = true
      ↔ ∃ x, r.trip_distance.value? = some x ∧ y ≤ x := by
    intro r
    rw [jsGe_iff_value_le, hnum]
    constructor
    · rintro ⟨x, y', hx, hy, hle⟩
      cases hy
      exact ⟨x, hx, hle⟩
    · rintro ⟨x, hx, hle⟩
      exact ⟨x, y, hx, rfl, hle⟩
  refine ⟨filterBtnClick_array host value s S hS, List.filter_sublist S, ?_, ?_⟩
  · intro r
    simp only [filteredTrips, List.mem_filter, key]
  · intro r hr
    have hp : (fun trip : Trip => jsGe trip.trip_distance (host.parseFloat value)) r
        = true := (key r).mpr hr
    simp only [filteredTrips]
    exact List.count_filter hp

/-- Scenario of claim C1: distances `[0.5, 2.0, 5.0]` with threshold `2.0` pass the
second and third records, and only them, to the renderers. -/
theorem filter_keeps_exactly_distance_ge_scenario :
    filterBtnClick scenarioHost "2.0" scenarioState
        = (renderAll scenarioHost (.array [tripB, tripC]) scenarioState).state
    ∧ tripB ∈ filteredTrips (.fin 2) [tripA, tripB, tripC]
    ∧ tripA ∉ filteredTrips (.fin 2) [tripA, tripB, tripC] := by
  have h := filter_keeps_exactly_distance_ge scenarioHost "2.0" scenarioState
    [tripA, tripB, tripC] (((2 : ℚ) : WithTop ℚ) : WithBot (WithTop ℚ)) rfl rfl
  have hf : filteredTrips (scenarioHost.parseFloat "2.0") [tripA, tripB, tripC]
      = [tripB, tripC] := by
    simp [filteredTrips, jsGe, JSNum.lessThan, tripA, tripB, tripC, List.filter,
      scenarioHost]
    norm_num
  have hf2 : filteredTrips (.fin 2) [tripA, tripB, tripC] = [tripB, tripC] := hf
  refine ⟨?_, ?_, ?_⟩
  · rw [h.1, hf]
  · rw [hf2]; simp
  · rw [hf2]; simp [tripA, tripB, tripC]

/-- Claim C2. When `parseFloat` yields NaN the predicate is false for every record:
whatever sequence `allTrips` holds, the handler passes the empty sequence to the
renderers, which run without an exception and leave an empty table, and nothing is
written to the console. -/
theorem filter_nan_gives_empty_view (host : Host) (value : String) (s : AppState)
    (S : List Trip) (hS : s.allTrips = .array S)
    (hnan : host.parseFloat value = .nan) :
    (∀ r ∈ S, jsGe r.trip_distance (host.parseFloat value) = false)
    ∧ filteredTrips (host.parseFloat value) S = []
    ∧ filterBtnClick host value s = (renderAll host (.array []) s).state
    ∧ (renderAll host (.array []) s).thrown = none
    ∧ (filterBtnClick host value s).tableBody = []
    ∧ (filterBtnClick host value s).console = s.console := by
  have hf : filteredTrips (host.parseFloat value) S = [] := by
    simp [filteredTrips, hnan, jsGe_nan_right]
  have hc : filterBtnClick host value s = (renderAll host (.array []) s).state := by
    rw [filterBtnClick_array host value s S hS, hf]
  refine ⟨?_, hf, hc, renderAll_array_thrown host [] s, ?_, ?_⟩
  · intro r _
    rw [hnan]
    exact jsGe_nan_right _
  · rw [hc]
    simp [renderAll, populateTable, createTripDistanceChart, createPassengerCountChart,
      Outcome.andThen, newChart, destroyChart]
    split <;> split <;> rfl
  · rw [hc]
    simp [renderAll, populateTable, createTripDistanceChart, createPassengerCountChart,
      Outcome.andThen, newChart, destroyChart]
    split <;> split <;> rfl

/-- Scenario of claim C2: with the three trips loaded and an input that does not
parse to a number, the filtered view is empty. -/
theorem filter_nan_gives_empty_view_scenario :
    filteredTrips (nanHost.parseFloat "abc") [tripA, tripB, tripC] = []
    ∧ (filterBtnClick nanHost "abc" scenarioState).tableBody = [] := by
  have h := filter_nan_gives_empty_view nanHost "abc" scenarioState
    [tripA, tripB, tripC] rfl rfl
  exact ⟨h.2.1, h.2.2.2.2.1⟩

/-- Claim C10. Filtering is idempotent: for every sequence and every threshold (NaN
included), filtering the filtered sequence again with the same threshold changes
nothing. -/
theorem filteredTrips_idempotent (t : JSNum) (S : List Trip) :
    filteredTrips t (filteredTrips t S) = filteredTrips t S := by
  simp [filteredTrips, List.filter_filter]

/-! ## Positions in lists -/

/-- Position of an element in a list extended by one element at the end. -/
theorem indexOf_snoc (l : List Nat) (k a : Nat) :
    List.indexOf a (l ++ [k])
      = if a ∈ l then List.indexOf a l else if k = a then l.length else l.length + 1 := by
  by_cases h : a ∈ l
  · simp [h, List.indexOf_append_of_mem h]
  · rw [List.indexOf_append_of_not_mem h]
    by_cases hk : k = a
    · simp [h, hk]
    · simp [h, hk, List.indexOf_cons_ne _ hk]

/-- Filtering a list keeps the relative position of the elements it keeps. -/
theorem indexOf_filter_lt_iff (p : Nat → Bool) (l : List Nat) (a b : Nat)
    (ha : p a = true) (hb : p b = true) :
    List.indexOf a (l.filter p) < List.indexOf b (l.filter p)
      ↔ List.indexOf a l < List.indexOf b l := by
  induction l with
  | nil => simp
  | cons x xs ih =>
    by_cases hx : p x = true
    · rw [List.filter_cons_of_pos hx]
      by_cases hxa : x = a <;> by_cases hxb : x = b
      · simp [List.indexOf_cons_eq _ hxa, List.indexOf_cons_eq _ hxb]
      · simp [List.indexOf_cons_eq _ hxa, List.indexOf_cons_ne _ hxb]
      · simp [List.indexOf_cons_ne _ hxa, List.indexOf_cons_eq _ hxb]
      · simp [List.indexOf_cons_ne _ hxa, List.indexOf_cons_ne _ hxb, ih]
    · have hxa : x ≠ a := fun h => hx (h ▸ ha)
      have hxb : x ≠ b := fun h => hx (h ▸ hb)
      rw [List.filter_cons_of_neg hx]
      simp [List.indexOf_cons_ne _ hxa, List.indexOf_cons_ne _ hxb, ih]

/-- In a strictly increasing list, positions compare as the elements do. -/
theorem indexOf_lt_iff_of_sorted (l : List Nat) (hl : l.Sorted (fun a b => a < b))
    (a b : Nat) (ha : a ∈ l) (hb : b ∈ l) :
    List.indexOf a l < List.indexOf b l ↔ a < b := by
  induction l with
  | nil => simp at ha
  | cons x xs ih =>
    have hx : ∀ y ∈ xs, x < y := List.rel_of_sorted_cons hl
    have hxs : xs.Sorted (fun a b => a < b) := List.Sorted.of_cons hl
    by_cases hxa : x = a <;> by_cases hxb : x = b
    · subst hxa; subst hxb; simp
    · subst hxa
      have hb2 : b ∈ xs := by
        rcases List.mem_cons.mp hb with h | h
        · exact absurd h.symm hxb
        · exact h
      simp [List.indexOf_cons_ne _ hxb, hx b hb2]
    · subst hxb
      have ha2 : a ∈ xs := by
        rcases List.mem_cons.mp ha with h | h
        · exact absurd h.symm hxa
        · exact h
      have := hx a ha2
      simp [List.indexOf_cons_ne _ hxa]
      omega
    · have ha2 : a ∈ xs := by
        rcases List.mem_cons.mp ha with h | h
        · exact absurd h.symm hxa
        · exact h
      have hb2 : b ∈ xs := by
        rcases List.mem_cons.mp hb with h | h
        · exact absurd h.symm hxb
        · exact h
      simp [List.indexOf_cons_ne _ hxa, List.indexOf_cons_ne _ hxb, ih hxs ha2 hb2]

/-! ## The accumulator object -/

/-- Assignment creates the key at the end when it is new and keeps the keys as they
are otherwise. -/
theorem created_set (o : JSObject) (k v : Nat) :
    (o.set k v).created = if k ∈ o.created then o.created else o.created ++ [k] := by
  unfold JSObject.set JSObject.created
  by_cases h : k ∈ o.map Prod.fst
  · have h2 : (o.any fun p => p.1 == k) = true := by
      simp only [List.any_eq_true, beq_iff_eq]
      obtain ⟨p, hp, hk⟩ := List.mem_map.mp h
      exact ⟨p, hp, hk⟩
    rw [if_pos h2, if_pos h, List.map_map]
    apply List.map_congr_left
    intro p _
    by_cases hp : p.1 = k <;> simp [hp]
  · have h2 : ¬ (o.any fun p => p.1 == k) = true := by
      simp only [List.any_eq_true, beq_iff_eq, not_exists, not_and]
      intro p hp hk
      exact h (List.mem_map.mpr ⟨p, hp, hk⟩)
    rw [if_neg h2, if_neg h]
    simp

/-- Reading the key just assigned gives the assigned value. -/
theorem get_set_self (o : JSObject) (k v : Nat) : (o.set k v).get k = some v := by
  unfold JSObject.set JSObject.get
  induction o with
  | nil => simp [List.lookup]
  | cons p ps ih =>
    obtain ⟨pk, pv⟩ := p
    by_cases hp : pk = k
    · subst hp
      simp [List.lookup]
    · have hkp : (k == pk) = false := by simpa using fun h => hp h.symm
      by_cases hany : (ps.any fun p => p.1 == k) = true
      · rw [if_pos hany] at ih
        simp [List.any_cons, hany, hp, List.lookup, hkp, ih]
      · rw [if_neg hany] at ih
        have hany2 : ¬ ((((pk, pv) :: ps).any fun p => p.1 == k) = true) := by
          simpa [List.any_cons, hp] using hany
        rw [if_neg hany2]
        simpa [List.lookup, hkp] using ih

/-- Replacing the value of key `k` does not change what another key reads. -/
theorem lookup_map_update_ne (ps : List (Nat × Nat)) (k v a : Nat) (h : a ≠ k) :
    List.lookup a (ps.map fun p => if p.1 = k then (k, v) else p) = List.lookup a ps := by
  induction ps with
  | nil => rfl
  | cons p ps ih =>
    obtain ⟨pk, pv⟩ := p
    rw [List.map_cons, List.lookup_cons, List.lookup_cons, ih]
    by_cases hp : pk = k
    · have h1 : (a == k) = false := by simpa using h
      have h2 : (a == pk) = false := by simpa [hp] using h
      simp [hp, h1]
    · simp [hp]

/-- Reading another key is not affected by an assignment. -/
theorem get_set_ne (o : JSObject) (k v a : Nat) (h : a ≠ k) :
    (o.set k v).get a = o.get a := by
  unfold JSObject.set JSObject.get
  split
  · exact lookup_map_update_ne o k v a h
  · rw [List.lookup_append]
    have : (a == k) = false := by simpa using h
    simp [List.lookup, this]

/-- One more trip is one more application of the reducer callback. -/
theorem passengerCounts_snoc (ts : List Trip) (t : Trip) :
    passengerCounts (ts ++ [t]) = countStep (passengerCounts ts) t := by
  simp [passengerCounts, List.foldl_append]

/-- The accumulator after the whole reduction: every key reads the number of trips
with that passenger count, the keys are created once each, they are the passenger
counts present, and they are created in first-seen order. -/
theorem passengerCounts_spec (trips : List Trip) :
    (∀ k, (passengerCounts trips).get k
        = if k ∈ passengerKeys trips then some ((passengerKeys trips).count k) else none)
    ∧ (passengerCounts trips).created.Nodup
    ∧ (∀ k, k ∈ (passengerCounts trips).created ↔ k ∈ passengerKeys trips)
    ∧ (∀ a b, List.indexOf a (passengerCounts trips).created
            < List.indexOf b (passengerCounts trips).created
          ↔ List.indexOf a (passengerKeys trips) < List.indexOf b (passengerKeys trips)) := by
  induction trips using List.reverseRecOn with
  | nil =>
    simp [passengerCounts, passengerKeys, JSObject.get, JSObject.created]
  | append_singleton ts t ih =>
    obtain ⟨hget, hnodup, hmem, hord⟩ := ih
    have hks : passengerKeys (ts ++ [t]) = passengerKeys ts ++ [t.passenger_count] := by
      simp [passengerKeys]
    have hor : orZero ((passengerCounts ts).get t.passenger_count)
        = (passengerKeys ts).count t.passenger_count := by
      rw [hget]
      by_cases hk : t.passenger_count ∈ passengerKeys ts
      · have hpos : 0 < (passengerKeys ts).count t.passenger_count :=
          List.count_pos_iff.mpr hk
        have hne : (passengerKeys ts).count t.passenger_count ≠ 0 := by omega
        simp [hk, orZero, hne]
      · simp [hk, orZero, List.count_eq_zero_of_not_mem hk]
    have hcr : (passengerCounts (ts ++ [t])).created
        = if t.passenger_count ∈ passengerKeys ts then (passengerCounts ts).created
          else (passengerCounts ts).created ++ [t.passenger_count] := by
      rw [passengerCounts_snoc, countStep, created_set]
      by_cases hk : t.passenger_count ∈ passengerKeys ts
      · rw [if_pos ((hmem _).mpr hk), if_pos hk]
      · rw [if_neg (fun h => hk ((hmem _).mp h)), if_neg hk]
    refine ⟨?_, ?_, ?_, ?_⟩
    · intro k
      rw [passengerCounts_snoc, countStep, hor, hks]
      by_cases hk : k = t.passenger_count
      · subst hk
        rw [get_set_self]
        simp
      · rw [get_set_ne _ _ _ _ hk, hget]
        have hk2 : ¬ t.passenger_count = k := fun h => hk h.symm
        simp [List.count_append, hk, hk2]
    · rw [hcr]
      split
      · exact hnodup
      · rename_i hk
        rw [List.nodup_append]
        refine ⟨hnodup, List.nodup_singleton _, ?_⟩
        intro a ha hb
        rw [List.mem_singleton] at hb
        subst hb
        exact hk ((hmem _).mp ha)
    · intro k
      rw [hcr, hks]
      split
      · rename_i hk
        rw [hmem, List.mem_append, List.mem_singleton]
        constructor
        · exact Or.inl
        · rintro (h | h)
          · exact h
          · exact h ▸ hk
      · simp [hmem]
    · intro a b
      rw [hcr, hks]
      by_cases hk : t.passenger_count ∈ passengerKeys ts
      · rw [if_pos hk, indexOf_snoc, indexOf_snoc, hord]
        have hla := @List.indexOf_le_length _ _ a (passengerKeys ts)
        have hlb := @List.indexOf_le_length _ _ b (passengerKeys ts)
        by_cases ha : a ∈ passengerKeys ts <;> by_cases hb : b ∈ passengerKeys ts
        · simp [ha, hb]
        · have hbk : ¬ t.passenger_count = b := fun h => hb (h ▸ hk)
          have := List.indexOf_lt_length.mpr ha
          have := List.indexOf_eq_length.mpr hb
          simp only [ha, hb, hbk, if_true, if_false]
          omega
        · have hak : ¬ t.passenger_count = a := fun h => ha (h ▸ hk)
          have := List.indexOf_eq_length.mpr ha
          simp only [ha, hb, hak, if_true, if_false]
          omega
        · have hak : ¬ t.passenger_count = a := fun h => ha (h ▸ hk)
          have hbk : ¬ t.passenger_count = b := fun h => hb (h ▸ hk)
          have := List.indexOf_eq_length.mpr ha
          have := List.indexOf_eq_length.mpr hb
          simp only [ha, hb, hak, hbk, if_false]
          omega
      · rw [if_neg hk, indexOf_snoc, indexOf_snoc, indexOf_snoc, indexOf_snoc]
        have hla := @List.indexOf_le_length _ _ a (passengerKeys ts)
        have hlb := @List.indexOf_le_length _ _ b (passengerKeys ts)
        have hla2 := @List.indexOf_le_length _ _ a (passengerCounts ts).created
        have hlb2 := @List.indexOf_le_length _ _ b (passengerCounts ts).created
        have := hord a b
        by_cases ha : a ∈ passengerKeys ts <;> by_cases hb : b ∈ passengerKeys ts
        · simp only [ha, hb, (hmem a).mpr ha, (hmem b).mpr hb, if_true]
          exact this
        · have hb2 : b ∉ (passengerCounts ts).created := fun h => hb ((hmem b).mp h)
          have h1 := List.indexOf_lt_length.mpr ha
          have h2 := List.indexOf_lt_length.mpr ((hmem a).mpr ha)
          simp only [ha, hb, hb2, (hmem a).mpr ha, if_true, if_false]
          split <;> omega
        · have ha2 : a ∉ (passengerCounts ts).created := fun h => ha ((hmem a).mp h)
          have h1 := List.indexOf_lt_length.mpr hb
          have h2 := List.indexOf_lt_length.mpr ((hmem b).mpr hb)
          simp only [ha, hb, ha2, (hmem b).mpr hb, if_true, if_false]
          split <;> omega
        · have ha2 : a ∉ (passengerCounts ts).created := fun h => ha ((hmem a).mp h)
          have hb2 : b ∉ (passengerCounts ts).created := fun h => hb ((hmem b).mp h)
          simp only [ha, hb, ha2, hb2, if_false]
          split <;> split <;> omega

/-! ## Labels and bar values of the passenger-count chart -/

/-- The own keys of an object are its created keys, rearranged. -/
theorem ownKeys_perm (o : JSObject) : o.ownKeys.Perm o.created := by
  unfold JSObject.ownKeys JSObject.created
  exact ((List.perm_insertionSort _ _).append_right _).trans
    (List.filter_append_perm isArrayIndex (o.map Prod.fst))

/-- The array-index part of the own keys is strictly increasing when no key is
created twice. -/
theorem indexKeys_sorted (o : JSObject) (h : o.created.Nodup) :
    (((o.created).filter isArrayIndex).insertionSort (fun a b => a ≤ b)).Sorted
      (fun a b => a < b) := by
  have h1 : (((o.created).filter isArrayIndex).insertionSort (fun a b => a ≤ b)).Sorted
      (fun a b => a ≤ b) := List.sorted_insertionSort _ _
  have h2 : (((o.created).filter isArrayIndex).insertionSort (fun a b => a ≤ b)).Nodup :=
    (List.perm_insertionSort _ _).nodup_iff.mpr (h.filter _)
  exact h1.lt_of_le h2

/-- A `filterMap` whose function is defined on every element is a `map`. -/
theorem filterMap_eq_map_of_forall (l : List Nat) (f : Nat → Option Nat) (g : Nat → Nat)
    (h : ∀ x ∈ l, f x = some (g x)) : l.filterMap f = l.map g := by
  induction l with
  | nil => rfl
  | cons x xs ih =>
    rw [List.filterMap_cons, h x (List.mem_cons_self _ _), List.map_cons,
      ih (fun y hy => h y (List.mem_cons_of_mem _ hy))]

/-- The labels are exactly the passenger counts present in the input. -/
theorem mem_objectKeys_iff (trips : List Trip) (k : Nat) :
    k ∈ objectKeys (passengerCounts trips) ↔ k ∈ passengerKeys trips := by
  unfold objectKeys
  rw [(ownKeys_perm _).mem_iff]
  exact (passengerCounts_spec trips).2.2.1 k

/-- The bar values are the frequencies of the labels, label by label. -/
theorem objectValues_eq_map_count (trips : List Trip) :
    objectValues (passengerCounts trips)
      = (objectKeys (passengerCounts trips)).map (fun k => (passengerKeys trips).count k) := by
  unfold objectValues
  apply filterMap_eq_map_of_forall
  intro k hk
  have hk2 : k ∈ passengerKeys trips := (mem_objectKeys_iff trips k).mp hk
  rw [(passengerCounts_spec trips).1 k, if_pos hk2]

/-- The number of trips with a given passenger count. -/
theorem count_passengerKeys (trips : List Trip) (k : Nat) :
    (passengerKeys trips).count k
      = trips.countP (fun t => decide (t.passenger_count = k)) := by
  unfold passengerKeys
  induction trips with
  | nil => rfl
  | cons t ts ih =>
    by_cases h : t.passenger_count = k
    · simp [List.count_cons, List.countP_cons, h, ih]
    · simp [List.count_cons, List.countP_cons, h, ih]

/-- Claim C3. For every sequence of trips the passenger-count chart receives one label
per distinct passenger count present (no duplicate, none for an absent count), as
many bar values as labels, and at every index the bar value is the number of input
records whose passenger count is the label at that index. -/
theorem passenger_chart_one_bar_per_count (trips : List Trip) (s : AppState) :
    (⟨s.nextChartId, .passengerCountChart,
        .bar (objectKeys (passengerCounts trips)) (objectValues (passengerCounts trips))⟩
      ∈ (createPassengerCountChart (.array trips) s).state.charts)
    ∧ (objectKeys (passengerCounts trips)).Nodup
    ∧ (∀ k, k ∈ objectKeys (passengerCounts trips) ↔ ∃ t ∈ trips, t.passenger_count = k)
    ∧ (objectValues (passengerCounts trips)).length
        = (objectKeys (passengerCounts trips)).length
    ∧ (∀ i : Nat, (objectValues (passengerCounts trips))[i]?
        = ((objectKeys (passengerCounts trips))[i]?).map
            (fun k => trips.countP (fun t => decide (t.passenger_count = k)))) := by
  refine ⟨?_, ?_, ?_, ?_, ?_⟩
  · simp only [createPassengerCountChart, newChart]
    split <;> simp [destroyChart]
  · unfold objectKeys
    exact (ownKeys_perm _).nodup_iff.mpr (passengerCounts_spec trips).2.1
  · intro k
    rw [mem_objectKeys_iff]
    simp [passengerKeys]
  · rw [objectValues_eq_map_count, List.length_map]
  · intro i
    rw [objectValues_eq_map_count, List.getElem?_map]
    cases (objectKeys (passengerCounts trips))[i]? with
    | none => rfl
    | some k => simp [count_passengerKeys]

/-- Scenario of claim C3: passenger counts `[1, 2, 1]` give the labels `1, 2` with
the bar values `2, 1`. -/
theorem passenger_chart_one_bar_per_count_scenario :
    objectKeys (passengerCounts [tripA, tripB, tripC]) = [1, 2]
    ∧ objectValues (passengerCounts [tripA, tripB, tripC]) = [2, 1]
    ∧ (objectValues (passengerCounts [tripA, tripB, tripC])).length
        = (objectKeys (passengerCounts [tripA, tripB, tripC])).length :=
  ⟨by decide, by decide,
    (passenger_chart_one_bar_per_count [tripA, tripB, tripC] scenarioState).2.2.2.1⟩

/-- Claim C4 as stated fails: for passenger counts `[2, 1]` the labels are `1, 2`,
so label `1` precedes label `2` although the first record with two passengers comes
before the first record with one. -/
theorem labels_not_first_seen :
    objectKeys (passengerCounts [tripB, tripA]) = [1, 2]
    ∧ passengerKeys [tripB, tripA] = [2, 1]
    ∧ ¬ FirstSeenOrder [tripB, tripA] := by
  refine ⟨by decide, by decide, ?_⟩
  intro h
  have h12 := h 1 2 (by decide) (by decide)
  have hl : List.indexOf 1 (objectKeys (passengerCounts [tripB, tripA]))
      < List.indexOf 2 (objectKeys (passengerCounts [tripB, tripA])) := by decide
  have hr : ¬ (List.indexOf 1 (passengerKeys [tripB, tripA])
      < List.indexOf 2 (passengerKeys [tripB, tripA])) := by decide
  exact hr (h12.mp hl)

/-- Claim C4, amended. Among the labels of the passenger-count chart, label `a`
precedes label `b` exactly when: both are array indices (below `2^32 - 1`) and
`a < b`; or `a` is an array index and `b` is not; or neither is an array index and the
first record with passenger count `a` comes before the first record with passenger
count `b`. -/
theorem labels_order (trips : List Trip) (a b : Nat)
    (ha : a ∈ objectKeys (passengerCounts trips))
    (hb : b ∈ objectKeys (passengerCounts trips)) :
    List.indexOf a (objectKeys (passengerCounts trips))
        < List.indexOf b (objectKeys (passengerCounts trips))
      ↔ (isArrayIndex a = true ∧ isArrayIndex b = true ∧ a < b)
        ∨ (isArrayIndex a = true ∧ isArrayIndex b = false)
        ∨ (isArrayIndex a = false ∧ isArrayIndex b = false
            ∧ List.indexOf a (passengerKeys trips) < List.indexOf b (passengerKeys trips)) := by
  obtain ⟨_, hnodup, hmem, hord⟩ := passengerCounts_spec trips
  have hac : a ∈ (passengerCounts trips).created :=
    (hmem a).mpr ((mem_objectKeys_iff trips a).mp ha)
  have hbc : b ∈ (passengerCounts trips).created :=
    (hmem b).mpr ((mem_objectKeys_iff trips b).mp hb)
  have hsorted := indexKeys_sorted (passengerCounts trips) hnodup
  have hmemS : ∀ k, k ∈ (((passengerCounts trips).created).filter isArrayIndex).insertionSort
      (fun a b => a ≤ b) ↔ k ∈ (passengerCounts trips).created ∧ isArrayIndex k = true := by
    intro k
    rw [(List.perm_insertionSort _ _).mem_iff, List.mem_filter]
  have hkeys : objectKeys (passengerCounts trips)
      = (((passengerCounts trips).created).filter isArrayIndex).insertionSort
          (fun a b => a ≤ b)
        ++ ((passengerCounts trips).created).filter (fun k => !isArrayIndex k) := rfl
  rw [hkeys]
  cases hia : isArrayIndex a <;> cases hib : isArrayIndex b
  · have ha2 : a ∉ (((passengerCounts trips).created).filter isArrayIndex).insertionSort
        (fun a b => a ≤ b) := by
      rw [hmemS]; simp [hia]
    have hb2 : b ∉ (((passengerCounts trips).created).filter isArrayIndex).insertionSort
        (fun a b => a ≤ b) := by
      rw [hmemS]; simp [hib]
    rw [List.indexOf_append_of_not_mem ha2, List.indexOf_append_of_not_mem hb2,
      Nat.add_lt_add_iff_left,
      indexOf_filter_lt_iff (fun k => !isArrayIndex k) _ a b (by simp [hia]) (by simp [hib]),
      hord]
    simp
  · have ha2 : a ∉ (((passengerCounts trips).created).filter isArrayIndex).insertionSort
        (fun a b => a ≤ b) := by
      rw [hmemS]; simp [hia]
    have hb2 : b ∈ (((passengerCounts trips).created).filter isArrayIndex).insertionSort
        (fun a b => a ≤ b) := (hmemS b).mpr ⟨hbc, hib⟩
    have := List.indexOf_lt_length.mpr hb2
    have := List.length_insertionSort (fun a b : Nat => a ≤ b)
      (((passengerCounts trips).created).filter isArrayIndex)
    rw [List.indexOf_append_of_not_mem ha2, List.indexOf_append_of_mem hb2]
    simp
    omega
  · have ha2 : a ∈ (((passengerCounts trips).created).filter isArrayIndex).insertionSort
        (fun a b => a ≤ b) := (hmemS a).mpr ⟨hac, hia⟩
    have hb2 : b ∉ (((passengerCounts trips).created).filter isArrayIndex).insertionSort
        (fun a b => a ≤ b) := by
      rw [hmemS]; simp [hib]
    have := List.indexOf_lt_length.mpr ha2
    have := List.length_insertionSort (fun a b : Nat => a ≤ b)
      (((passengerCounts trips).created).filter isArrayIndex)
    rw [List.indexOf_append_of_mem ha2, List.indexOf_append_of_not_mem hb2]
    simp
    omega
  · have ha2 : a ∈ (((passengerCounts trips).created).filter isArrayIndex).insertionSort
        (fun a b => a ≤ b) := (hmemS a).mpr ⟨hac, hia⟩
    have hb2 : b ∈ (((passengerCounts trips).created).filter isArrayIndex).insertionSort
        (fun a b => a ≤ b) := (hmemS b).mpr ⟨hbc, hib⟩
    rw [List.indexOf_append_of_mem ha2, List.indexOf_append_of_mem hb2,
      indexOf_lt_iff_of_sorted _ hsorted a b ha2 hb2]
    simp

/-- Scenario of the amended claim C4: for passenger counts `[2, 1]`, label `1`
precedes label `2` because `1 < 2`. -/
theorem labels_order_scenario :
    1 ∈ objectKeys (passengerCounts [tripB, tripA])
    ∧ 2 ∈ objectKeys (passengerCounts [tripB, tripA])
    ∧ List.indexOf 1 (objectKeys (passengerCounts [tripB, tripA]))
        < List.indexOf 2 (objectKeys (passengerCounts [tripB, tripA])) :=
  ⟨by decide, by decide,
    (labels_order [tripB, tripA] 1 2 (by decide) (by decide)).mpr
      (Or.inl ⟨by decide, by decide, by decide⟩)⟩

/-! ## Closed forms of the renderers on an array -/

/-- The `forEach` loop appends one row per trip, in order. -/
theorem foldl_appendRow (host : Host) (ts : List Trip) (s : AppState) :
    ts.foldl (appendRow host) s
      = { s with tableBody := s.tableBody ++ ts.map (rowHTML host) } := by
  induction ts generalizing s with
  | nil => simp
  | cons t ts ih => simp [List.foldl_cons, ih, appendRow]

/-- The state `populateTable` leaves on an array. -/
theorem populateTable_array (host : Host) (ts : List Trip) (s : AppState) :
    populateTable host (.array ts) s
      = ⟨{ s with tableBody := ts.map (rowHTML host) }, none⟩ := by
  simp [populateTable, foldl_appendRow]

/-- The state `createTripDistanceChart` leaves on an array. -/
theorem createTripDistanceChart_array (ts : List Trip) (s : AppState) :
    createTripDistanceChart (.array ts) s
      = ⟨{ s with
            charts := replaced s.tripDistanceChart
              ⟨s.nextChartId, .tripDistanceChart, .scatter (scatterData ts)⟩ s.charts,
            nextChartId := s.nextChartId + 1,
            tripDistanceChart := some s.nextChartId }, none⟩ := by
  unfold createTripDistanceChart replaced newChart destroyChart
  cases s.tripDistanceChart <;> rfl

/-- The state `createPassengerCountChart` leaves on an array. -/
theorem createPassengerCountChart_array (ts : List Trip) (s : AppState) :
    createPassengerCountChart (.array ts) s
      = ⟨{ s with
            charts := replaced s.passengerCountChart
              ⟨s.nextChartId, .passengerCountChart,
                .bar (objectKeys (passengerCounts ts)) (objectValues (passengerCounts ts))⟩
              s.charts,
            nextChartId := s.nextChartId + 1,
            passengerCountChart := some s.nextChartId }, none⟩ := by
  unfold createPassengerCountChart replaced newChart destroyChart
  cases s.passengerCountChart <;> rfl

/-- The filtered view of the scenario: the second and third trips. -/
theorem scenario_filteredTrips :
    filteredTrips (scenarioHost.parseFloat "2.0") [tripA, tripB, tripC] = [tripB, tripC] := by
  simp [filteredTrips, jsGe, JSNum.lessThan, tripA, tripB, tripC, List.filter,
    scenarioHost]
  norm_num

/-- The click of the scenario renders the second and third trips. -/
theorem scenario_click :
    filterBtnClick scenarioHost "2.0" scenarioState
      = (renderAll scenarioHost (.array [tripB, tripC]) scenarioState).state := by
  rw [filterBtnClick_array scenarioHost "2.0" scenarioState [tripA, tripB, tripC] rfl,
    scenario_filteredTrips]

/-! ## Table -/

/-- Feeding two pieces of markup one after the other. -/
theorem feedAll_append (p : RowParse) (xs ys : List Char) :
    p.feedAll (xs ++ ys) = (p.feedAll xs).bind (fun q => q.feedAll ys) := by
  induction xs generalizing p with
  | nil => rfl
  | cons c cs ih =>
    simp only [List.cons_append, RowParse.feedAll]
    cases p.feed c with
    | none => rfl
    | some q => exact ih q

/-- Inside a cell, plain text is added to the text of the cell. -/
theorem feedAll_plain (cs text : List Char) (cells : List String)
    (h : cs.all plainChar = true) :
    RowParse.feedAll ⟨.data, some text, cells⟩ cs = some ⟨.data, some (text ++ cs), cells⟩ := by
  induction cs generalizing text with
  | nil => simp [RowParse.feedAll]
  | cons c cs ih =>
    rw [List.all_cons, Bool.and_eq_true] at h
    have hlt : c ≠ '<' := by
      intro hc
      have hp := h.1
      rw [hc] at hp
      exact absurd hp (by decide)
    simp only [RowParse.feedAll, RowParse.feed, if_neg hlt, h.1, if_true, RowParse.text]
    rw [ih (text ++ [c]) h.2]
    simp

/-- The markup before the first cell opens a cell. -/
theorem feedAll_open (cells : List String) :
    RowParse.feedAll ⟨.data, none, cells⟩ "\n            <td>".data
      = some ⟨.data, some [], cells⟩ := by
  rfl

/-- The markup between two cells closes the open cell and opens the next. -/
theorem feedAll_between (text : List Char) (cells : List String) :
    RowParse.feedAll ⟨.data, some text, cells⟩ "</td>\n            <td>".data
      = some ⟨.data, some [], cells ++ [String.mk text]⟩ := by
  rfl

/-- The markup after the last cell closes the open cell. -/
theorem feedAll_close (text : List Char) (cells : List String) :
    RowParse.feedAll ⟨.data, some text, cells⟩ "</td>\n        ".data
      = some ⟨.data, none, cells ++ [String.mk text]⟩ := by
  rfl

/-- Feeding a second piece of markup from where the first one ended. -/
theorem feedAll_then (p q r : RowParse) (xs ys : List Char)
    (h1 : p.feedAll xs = some q) (h2 : q.feedAll ys = some r) :
    p.feedAll (xs ++ ys) = some r := by
  rw [feedAll_append, h1]
  exact h2

/-- Three plain texts wrapped in the markup of a row are its three cells. -/
theorem rowCells_three (a b c : String) (ha : plainText a = true)
    (hb : plainText b = true) (hc : plainText c = true) :
    rowCells ("\n            <td>" ++ a ++ "</td>\n            <td>" ++ b
        ++ "</td>\n            <td>" ++ c ++ "</td>\n        ")
      = some [a, b, c] := by
  unfold plainText at ha hb hc
  have h1 := feedAll_then _ _ _ _ _ (feedAll_open []) (feedAll_plain a.data [] [] ha)
  have h2 := feedAll_then _ _ _ _ _ h1 (feedAll_between _ _)
  have h3 := feedAll_then _ _ _ _ _ h2 (feedAll_plain b.data [] _ hb)
  have h4 := feedAll_then _ _ _ _ _ h3 (feedAll_between _ _)
  have h5 := feedAll_then _ _ _ _ _ h4 (feedAll_plain c.data [] _ hc)
  have h6 := feedAll_then _ _ _ _ _ h5 (feedAll_close _ _)
  unfold rowCells
  rw [String.data_append, String.data_append, String.data_append, String.data_append,
    String.data_append, String.data_append, h6]
  simp [RowParse.finish]

/-- Claim C5 as stated fails: for a record whose id is the text `<td>x</td>` the row
that `populateTable` appends has four cells, an empty one, `x`, the pickup time and
the distance, so it does not display the id, the pickup time and the distance in
that column order. -/
theorem row_with_markup_id_not_displayed :
    (populateTable scenarioHost (.array [markupTrip]) (initialState [])).state.tableBody
      = [rowHTML scenarioHost markupTrip]
    ∧ rowHTML scenarioHost markupTrip
      = "\n            <td><td>x</td></td>\n            <td>2016-01-01 00:30:00</td>\n            <td>2</td>\n        "
    ∧ rowCells (rowHTML scenarioHost markupTrip)
      = some ["", "x", "2016-01-01 00:30:00", "2"]
    ∧ ¬ Displays scenarioHost (rowHTML scenarioHost markupTrip) markupTrip := by
  have hc : rowCells (rowHTML scenarioHost markupTrip)
      = some ["", "x", "2016-01-01 00:30:00", "2"] := by decide
  refine ⟨rfl, by decide, hc, ?_⟩
  unfold Displays
  rw [hc]
  decide

/-- Claim C5, amended. Whatever the table body held before, after
`populateTable(trips)` it holds exactly one row per input record and no exception is
thrown: the row count is the length of the input and the row at every index has the
markup built from the record at that index, which is three `td` cells holding the
string form of the id (the text itself for a text id, the formatted number for a
numeric id), the pickup time and the formatted distance, in that order. When these
three texts hold no `<`, `&`, carriage return or NUL character, the row displays
exactly three cells with these texts, in that order. -/
theorem populateTable_rows (host : Host) (trips : List Trip) (s : AppState) :
    (populateTable host (.array trips) s).thrown = none
    ∧ (populateTable host (.array trips) s).state.tableBody.length = trips.length
    ∧ (∀ i : Nat, (populateTable host (.array trips) s).state.tableBody[i]?
          = (trips[i]?).map (rowHTML host))
    ∧ (∀ (trip : Trip) (idText : String),
        (trip.id = .str idText ∨ ∃ n, trip.id = .num n ∧ host.numToString n = idText) →
          rowHTML host trip
            = "\n            <td>" ++ idText
              ++ "</td>\n            <td>" ++ trip.pickup_datetime
              ++ "</td>\n            <td>" ++ host.numToString trip.trip_distance
              ++ "</td>\n        "
          ∧ (plainText idText = true → plainText trip.pickup_datetime = true →
              plainText (host.numToString trip.trip_distance) = true →
              rowCells (rowHTML host trip)
                = some [idText, trip.pickup_datetime,
                    host.numToString trip.trip_distance])) := by
  rw [populateTable_array]
  refine ⟨rfl, ?_, ?_, ?_⟩
  · simp
  · intro i
    simp
  · intro trip idText hid
    have hrow : rowHTML host trip
        = "\n            <td>" ++ idText
          ++ "</td>\n            <td>" ++ trip.pickup_datetime
          ++ "</td>\n            <td>" ++ host.numToString trip.trip_distance
          ++ "</td>\n        " := by
      rcases hid with h | ⟨n, h, hn⟩
      · simp [rowHTML, jsToString, h]
      · simp [rowHTML, jsToString, h, hn]
    refine ⟨hrow, ?_⟩
    intro ha hb hc
    rw [hrow]
    exact rowCells_three _ _ _ ha hb hc

/-- Scenario of the amended claim C5: the two-record filtered view yields a table of
two rows, whose cells are the id, the pickup time and the distance of the second and
of the third trip. -/
theorem populateTable_rows_scenario :
    (filterBtnClick scenarioHost "2.0" scenarioState).tableBody
      = [rowHTML scenarioHost tripB, rowHTML scenarioHost tripC]
    ∧ rowHTML scenarioHost tripB
      = "\n            <td>b</td>\n            <td>2016-01-01 00:10:00</td>\n            <td>2</td>\n        "
    ∧ rowCells (rowHTML scenarioHost tripB) = some ["b", "2016-01-01 00:10:00", "2"]
    ∧ rowCells (rowHTML scenarioHost tripC) = some ["c", "2016-01-01 00:20:00", "5"] := by
  have hB := (populateTable_rows scenarioHost [tripB, tripC] scenarioState).2.2.2
    tripB "b" (Or.inl rfl)
  have hC := (populateTable_rows scenarioHost [tripB, tripC] scenarioState).2.2.2
    tripC "c" (Or.inl rfl)
  refine ⟨?_, by decide, ?_, ?_⟩
  · rw [scenario_click]
    simp [renderAll, Outcome.andThen, populateTable_array,
      createTripDistanceChart_array, createPassengerCountChart_array]
  · have h := hB.2 (by decide) (by decide) (by decide)
    rw [h]
    decide
  · have h := hC.2 (by decide) (by decide) (by decide)
    rw [h]
    decide

/-! ## Scatter chart -/

/-- Claim C9. The chart created by `createTripDistanceChart(trips)` is a scatter chart
on the trip-distance canvas, referenced by the handle, whose dataset has one point per
input record, in input order, the point at every index being the distance and the
duration of the record at that index. -/
theorem scatter_one_point_per_trip (trips : List Trip) (s : AppState) :
    (createTripDistanceChart (.array trips) s).thrown = none
    ∧ (createTripDistanceChart (.array trips) s).state.tripDistanceChart
        = some s.nextChartId
    ∧ (⟨s.nextChartId, .tripDistanceChart, .scatter (scatterData trips)⟩
        ∈ (createTripDistanceChart (.array trips) s).state.charts)
    ∧ (scatterData trips).length = trips.length
    ∧ (∀ i : Nat, (scatterData trips)[i]?
        = (trips[i]?).map (fun t => (⟨t.trip_distance, t.trip_duration⟩ : Point))) := by
  rw [createTripDistanceChart_array]
  refine ⟨rfl, rfl, ?_, ?_, ?_⟩
  · simp [replaced]
  · simp [scatterData]
  · intro i
    simp [scatterData]

/-- Scenario of claim C9: the two-record filtered view yields a scatter dataset of
two points. -/
theorem scatter_one_point_per_trip_scenario :
    (scatterData (filteredTrips (scenarioHost.parseFloat "2.0") [tripA, tripB, tripC])).length
      = 2 := by
  rw [scenario_filteredTrips]
  exact (scatter_one_point_per_trip [tripB, tripC] scenarioState).2.2.2.1

/-! ## Data loader -/

/-- Claim C7 as stated fails: when the response parses to a value that is not an
array of trip records the load fails and the error is reported, but `allTrips` has
been replaced by the payload and the rows the table held before the load are gone.
For an object payload the table is left empty; for the array of the first scenario
trip, `null` and the third scenario trip it is left with the row of the first trip. -/
theorem load_wrong_shape_changes_state :
    (loadTrips scenarioHost (.json (.nonArray (.object [("error", "unavailable")])))
        (initialState ["<tr><td>Loading</td></tr>"])).console
      = [⟨"Error fetching data:", .typeError⟩]
    ∧ (loadTrips scenarioHost (.json (.nonArray (.object [("error", "unavailable")])))
        (initialState ["<tr><td>Loading</td></tr>"])).allTrips ≠ .array []
    ∧ (loadTrips scenarioHost (.json (.nonArray (.object [("error", "unavailable")])))
        (initialState ["<tr><td>Loading</td></tr>"])).tableBody = []
    ∧ (loadTrips scenarioHost (.json (.arrayWithNull [tripA] [some tripC]))
        (initialState ["<tr><td>Loading</td></tr>"])).console
      = [⟨"Error fetching data:", .typeError⟩]
    ∧ (loadTrips scenarioHost (.json (.arrayWithNull [tripA] [some tripC]))
        (initialState ["<tr><td>Loading</td></tr>"])).allTrips ≠ .array []
    ∧ (loadTrips scenarioHost (.json (.arrayWithNull [tripA] [some tripC]))
        (initialState ["<tr><td>Loading</td></tr>"])).tableBody
      = [rowHTML scenarioHost tripA]
    ∧ (initialState ["<tr><td>Loading</td></tr>"]).tableBody
      = ["<tr><td>Loading</td></tr>"] := by
  refine ⟨by decide, by decide, rfl, rfl, ?_, rfl, rfl⟩
  intro h
  cases h

/-- Claim C7, amended. When `fetch` rejects or the body is not valid JSON, the error
is reported and the state is otherwise left as it was: from the initial state
`allTrips` stays empty, the table body keeps its content, both chart handles stay
absent and no chart instance exists. When the body parses to a value that is not an
array, or to an array of trip records with a `null` element, the error is reported
after `allTrips` has been replaced by the payload and the table body cleared: the
table body is left empty in the first case and with the rows of the records before
the first `null` in the second; the chart handles and the chart instances are left
as they were. -/
theorem load_failure_effect (host : Host) (s : AppState) (tableBody : List String)
    (e : String) (v : NonArray) (before : List Trip) (rest : List (Option Trip)) :
    loadTrips host (.networkError e) s
        = { s with console := s.console ++ [⟨"Error fetching data:", .rejected e⟩] }
    ∧ loadTrips host (.invalidJson e) s
        = { s with console := s.console ++ [⟨"Error fetching data:", .rejected e⟩] }
    ∧ loadTrips host (.json (.nonArray v)) s
        = { s with
              allTrips := .nonArray v, tableBody := [],
              console := s.console ++ [⟨"Error fetching data:", .typeError⟩] }
    ∧ loadTrips host (.json (.arrayWithNull before rest)) s
        = { s with
              allTrips := .arrayWithNull before rest,
              tableBody := before.map (rowHTML host),
              console := s.console ++ [⟨"Error fetching data:", .typeError⟩] }
    ∧ (initialState tableBody).allTrips = .array []
    ∧ (initialState tableBody).tableBody = tableBody
    ∧ (initialState tableBody).tripDistanceChart = none
    ∧ (initialState tableBody).passengerCountChart = none
    ∧ (initialState tableBody).charts = [] := by
  refine ⟨rfl, rfl, rfl, ?_, rfl, rfl, rfl, rfl, rfl⟩
  simp [loadTrips, onData, renderAll, populateTable, Outcome.andThen, consoleError,
    foldl_appendRow]

/-! ## Chart instances -/

/-- Replacing the instance of a view: the new instance is the only live one on its
canvas, the other canvas keeps its live instances, identities stay fresh and
distinct. -/
theorem replaced_spec (charts : List ChartInstance) (next : Nat) (c : Canvas)
    (cfg : ChartConfig) (handle : Option Nat)
    (hlt : ∀ i ∈ charts, i.id < next)
    (hnd : (charts.map ChartInstance.id).Nodup)
    (hview : match handle with
      | none => charts.filter (fun i => decide (i.canvas = c)) = []
      | some h => ∃ inst, charts.filter (fun i => decide (i.canvas = c)) = [inst]
          ∧ inst.id = h) :
    (∀ i ∈ replaced handle ⟨next, c, cfg⟩ charts, i.id < next + 1)
    ∧ ((replaced handle ⟨next, c, cfg⟩ charts).map ChartInstance.id).Nodup
    ∧ (replaced handle ⟨next, c, cfg⟩ charts).filter (fun i => decide (i.canvas = c))
        = [⟨next, c, cfg⟩]
    ∧ ∀ c', c' ≠ c →
        (replaced handle ⟨next, c, cfg⟩ charts).filter (fun i => decide (i.canvas = c'))
          = charts.filter (fun i => decide (i.canvas = c')) := by
  cases handle with
  | none =>
    simp only [replaced]
    simp only at hview
    refine ⟨?_, ?_, ?_, ?_⟩
    · intro i hi
      rcases List.mem_append.mp hi with h | h
      · exact Nat.lt_succ_of_lt (hlt i h)
      · rw [List.mem_singleton] at h
        subst h
        exact Nat.lt_succ_self _
    · rw [List.map_append, List.nodup_append]
      refine ⟨hnd, List.nodup_singleton _, ?_⟩
      intro a ha hb
      simp only [List.map_cons, List.map_nil, List.mem_singleton] at hb
      obtain ⟨i, hi, rfl⟩ := List.mem_map.mp ha
      have := hlt i hi
      omega
    · rw [List.filter_append, hview]
      simp
    · intro c' hc
      rw [List.filter_append]
      have : ¬ c = c' := fun h => hc h.symm
      simp [this]
  | some h =>
    simp only [replaced]
    simp only at hview
    obtain ⟨inst, hinst, hid⟩ := hview
    have hmem : inst ∈ charts.filter (fun i => decide (i.canvas = c)) := by
      rw [hinst]; exact List.mem_singleton_self _
    have hinC : inst ∈ charts := (List.mem_filter.mp hmem).1
    have hcan : inst.canvas = c := by simpa using (List.mem_filter.mp hmem).2
    refine ⟨?_, ?_, ?_, ?_⟩
    · intro i hi
      rcases List.mem_append.mp hi with h1 | h1
      · exact Nat.lt_succ_of_lt (hlt i (List.mem_filter.mp h1).1)
      · rw [List.mem_singleton] at h1
        subst h1
        exact Nat.lt_succ_self _
    · rw [List.map_append, List.nodup_append]
      refine ⟨(hnd.sublist ((List.filter_sublist charts).map _)),
        List.nodup_singleton _, ?_⟩
      intro a ha hb
      simp only [List.map_cons, List.map_nil, List.mem_singleton] at hb
      obtain ⟨i, hi, rfl⟩ := List.mem_map.mp ha
      have := hlt i (List.mem_filter.mp hi).1
      omega
    · rw [List.filter_append, List.filter_filter]
      have hswap : charts.filter (fun a => decide (a.canvas = c) && (a.id != h))
          = (charts.filter (fun i => decide (i.canvas = c))).filter (fun a => a.id != h) := by
        rw [List.filter_filter]
        congr 1
        funext a
        exact Bool.and_comm _ _
      rw [hswap, hinst]
      simp [hid]
    · intro c' hc
      rw [List.filter_append, List.filter_filter]
      have hne : ¬ c = c' := fun h => hc h.symm
      have hkeep : charts.filter (fun a => decide (a.canvas = c') && (a.id != h))
          = charts.filter (fun i => decide (i.canvas = c')) := by
        apply List.filter_congr
        intro i hi
        by_cases hic : i.canvas = c'
        · have hne2 : i.id ≠ h := by
            intro heq
            have hii : i = inst :=
              List.inj_on_of_nodup_map hnd hi hinC (heq.trans hid.symm)
            rw [hii, hcan] at hic
            exact hne hic
          simp [hic, hne2]
        · simp [hic]
      rw [hkeep]
      simp [hne]

/-- The invariant holds initially. -/
theorem wellFormed_initialState (tableBody : List String) :
    WellFormed (initialState tableBody) := by
  refine ⟨?_, ?_, ?_⟩
  · intro i hi
    simp [initialState] at hi
  · simp [initialState]
  · intro c
    cases c <;> simp [ViewOK, handleOf, liveOn, initialState]

/-- The invariant only reads the chart bookkeeping. -/
theorem wellFormed_of_same_charts (s s' : AppState) (h : WellFormed s)
    (h1 : s'.charts = s.charts) (h2 : s'.nextChartId = s.nextChartId)
    (h3 : s'.tripDistanceChart = s.tripDistanceChart)
    (h4 : s'.passengerCountChart = s.passengerCountChart) : WellFormed s' := by
  obtain ⟨hlt, hnd, hv⟩ := h
  refine ⟨?_, ?_, ?_⟩
  · rw [h1, h2]; exact hlt
  · rw [h1]; exact hnd
  · intro c
    have := hv c
    cases c <;> simp only [ViewOK, handleOf, liveOn, h1, h3, h4] at this ⊢ <;> exact this

/-- Rendering the scatter chart keeps the invariant and leaves the new instance as
the only live one of its view. -/
theorem wellFormed_createTripDistanceChart (ts : List Trip) (s : AppState)
    (h : WellFormed s) :
    WellFormed (createTripDistanceChart (.array ts) s).state
    ∧ liveOn .tripDistanceChart (createTripDistanceChart (.array ts) s).state
        = [⟨s.nextChartId, .tripDistanceChart, .scatter (scatterData ts)⟩]
    ∧ liveOn .passengerCountChart (createTripDistanceChart (.array ts) s).state
        = liveOn .passengerCountChart s := by
  obtain ⟨hlt, hnd, hv⟩ := h
  have hr := replaced_spec s.charts s.nextChartId .tripDistanceChart
    (.scatter (scatterData ts)) s.tripDistanceChart hlt hnd (hv .tripDistanceChart)
  rw [createTripDistanceChart_array]
  refine ⟨⟨hr.1, hr.2.1, ?_⟩, hr.2.2.1, hr.2.2.2 _ (by decide)⟩
  intro c
  cases c
  · exact ⟨_, hr.2.2.1, rfl⟩
  · have hp := hv .passengerCountChart
    simp only [ViewOK, handleOf, liveOn] at hp ⊢
    rw [hr.2.2.2 _ (by decide)]
    exact hp

/-- Rendering the bar chart keeps the invariant and leaves the new instance as the
only live one of its view. -/
theorem wellFormed_createPassengerCountChart (ts : List Trip) (s : AppState)
    (h : WellFormed s) :
    WellFormed (createPassengerCountChart (.array ts) s).state
    ∧ liveOn .passengerCountChart (createPassengerCountChart (.array ts) s).state
        = [⟨s.nextChartId, .passengerCountChart,
            .bar (objectKeys (passengerCounts ts)) (objectValues (passengerCounts ts))⟩]
    ∧ liveOn .tripDistanceChart (createPassengerCountChart (.array ts) s).state
        = liveOn .tripDistanceChart s := by
  obtain ⟨hlt, hnd, hv⟩ := h
  have hr := replaced_spec s.charts s.nextChartId .passengerCountChart
    (.bar (objectKeys (passengerCounts ts)) (objectValues (passengerCounts ts)))
    s.passengerCountChart hlt hnd (hv .passengerCountChart)
  rw [createPassengerCountChart_array]
  refine ⟨⟨hr.1, hr.2.1, ?_⟩, hr.2.2.1, hr.2.2.2 _ (by decide)⟩
  intro c
  cases c
  · have hp := hv .tripDistanceChart
    simp only [ViewOK, handleOf, liveOn] at hp ⊢
    rw [hr.2.2.2 _ (by decide)]
    exact hp
  · exact ⟨_, hr.2.2.1, rfl⟩

/-- The three renderers in sequence on an array. -/
theorem renderAll_array (host : Host) (ts : List Trip) (s : AppState) :
    (renderAll host (.array ts) s).state
      = (createPassengerCountChart (.array ts)
          (createTripDistanceChart (.array ts)
            { s with tableBody := ts.map (rowHTML host) }).state).state := by
  simp [renderAll, Outcome.andThen, populateTable_array, createTripDistanceChart_array,
    createPassengerCountChart_array]

/-- What the three views show after the three renderers have run on an array, from
a state that satisfies the invariant. -/
theorem viewOf_renderAll (host : Host) (ts : List Trip) (s : AppState)
    (h : WellFormed s) :
    WellFormed (renderAll host (.array ts) s).state
    ∧ viewOf (renderAll host (.array ts) s).state
      = (ts.map (rowHTML host), [.scatter (scatterData ts)],
          [.bar (objectKeys (passengerCounts ts)) (objectValues (passengerCounts ts))]) := by
  have h0 : WellFormed { s with tableBody := ts.map (rowHTML host) } :=
    wellFormed_of_same_charts s _ h rfl rfl rfl rfl
  have h1 := wellFormed_createTripDistanceChart ts _ h0
  have h2 := wellFormed_createPassengerCountChart ts _ h1.1
  rw [renderAll_array]
  refine ⟨h2.1, ?_⟩
  unfold viewOf
  rw [h2.2.1, h2.2.2, h1.2.1]
  simp [createPassengerCountChart_array, createTripDistanceChart_array]

/-- Every action keeps the invariant. -/
theorem wellFormed_step (host : Host) (s : AppState) (a : Action) (h : WellFormed s) :
    WellFormed (step host s a) := by
  cases a with
  | load r =>
    cases r with
    | networkError e => exact wellFormed_of_same_charts s _ h rfl rfl rfl rfl
    | invalidJson e => exact wellFormed_of_same_charts s _ h rfl rfl rfl rfl
    | json data =>
      cases data with
      | nonArray v => exact wellFormed_of_same_charts s _ h rfl rfl rfl rfl
      | arrayWithNull before rest =>
        exact wellFormed_of_same_charts s _ h (by simp [step, loadTrips, onData, renderAll,
          populateTable, Outcome.andThen, consoleError, foldl_appendRow])
          (by simp [step, loadTrips, onData, renderAll,
          populateTable, Outcome.andThen, consoleError, foldl_appendRow])
          (by simp [step, loadTrips, onData, renderAll,
          populateTable, Outcome.andThen, consoleError, foldl_appendRow])
          (by simp [step, loadTrips, onData, renderAll,
          populateTable, Outcome.andThen, consoleError, foldl_appendRow])
      | array ts =>
        have h0 : WellFormed { s with allTrips := .array ts } :=
          wellFormed_of_same_charts s _ h rfl rfl rfl rfl
        have h1 := (viewOf_renderAll host ts _ h0).1
        have ht := renderAll_array_thrown host ts { s with allTrips := .array ts }
        simp only [step, loadTrips, onData, ht]
        exact h1
  | filter value =>
    simp only [step, filterBtnClick]
    split
    · exact h
    · exact h
    · exact (viewOf_renderAll host _ s h).1
  | renderDistance ts => exact (wellFormed_createTripDistanceChart ts s h).1
  | renderPassenger ts => exact (wellFormed_createPassengerCountChart ts s h).1

/-- Every run from a state that satisfies the invariant ends in one that does. -/
theorem wellFormed_run (host : Host) (actions : List Action) (s : AppState)
    (h : WellFormed s) : WellFormed (run host s actions) := by
  induction actions generalizing s with
  | nil => exact h
  | cons a as ih => exact ih _ (wellFormed_step host s a h)

/-- No action resets a chart handle. -/
theorem handleOf_step_ne_none (host : Host) (c : Canvas) (s : AppState) (a : Action)
    (h : handleOf c s ≠ none) : handleOf c (step host s a) ≠ none := by
  cases a with
  | load r =>
    cases r with
    | networkError e => cases c <;> exact h
    | invalidJson e => cases c <;> exact h
    | json data =>
      cases data with
      | nonArray v => cases c <;> exact h
      | arrayWithNull before rest =>
        cases c <;>
          simpa [step, loadTrips, onData, renderAll, populateTable, Outcome.andThen,
            consoleError, foldl_appendRow, handleOf] using h
      | array ts =>
        have ht := renderAll_array_thrown host ts { s with allTrips := .array ts }
        simp only [step, loadTrips, onData, ht, renderAll_array,
          createPassengerCountChart_array, createTripDistanceChart_array]
        cases c <;> simp [handleOf]
  | filter value =>
    simp only [step, filterBtnClick]
    split
    · exact h
    · exact h
    · simp only [renderAll_array, createPassengerCountChart_array,
        createTripDistanceChart_array]
      cases c <;> simp [handleOf]
  | renderDistance ts =>
    simp only [step, createTripDistanceChart_array]
    cases c
    · simp [handleOf]
    · exact h
  | renderPassenger ts =>
    simp only [step, createPassengerCountChart_array]
    cases c
    · exact h
    · simp [handleOf]

/-- No run resets a chart handle. -/
theorem handleOf_run_ne_none (host : Host) (c : Canvas) (actions : List Action)
    (s : AppState) (h : handleOf c s ≠ none) : handleOf c (run host s actions) ≠ none := by
  induction actions generalizing s with
  | nil => exact h
  | cons a as ih => exact ih _ (handleOf_step_ne_none host c s a h)

/-- A render action leaves exactly one live instance on its canvas, referenced by
the handle of the view. -/
theorem render_exactly_one (host : Host) (c : Canvas) (ts : List Trip) (s : AppState)
    (h : WellFormed s) :
    ∃ inst, liveOn c (step host s (renderAction c ts)) = [inst]
      ∧ handleOf c (step host s (renderAction c ts)) = some inst.id := by
  cases c
  · refine ⟨_, (wellFormed_createTripDistanceChart ts s h).2.1, ?_⟩
    simp [step, renderAction, createTripDistanceChart_array, handleOf]
  · refine ⟨_, (wellFormed_createPassengerCountChart ts s h).2.1, ?_⟩
    simp [step, renderAction, createPassengerCountChart_array, handleOf]

/-- Claim C6. In every state reached from the initial state by any sequence of load,
filter and render actions, each view has at most one live instance: none while its
handle is null, and exactly one, the one the handle references, once the handle is
set. Rendering a view, once or twice in succession, leaves exactly one live instance
on its canvas, referenced by the handle, and no later action resets the handle. -/
theorem chart_views_single_instance (host : Host) (tableBody : List String)
    (actions : List Action) (c : Canvas) :
    (liveOn c (run host (initialState tableBody) actions)).length ≤ 1
    ∧ (handleOf c (run host (initialState tableBody) actions) = none →
        liveOn c (run host (initialState tableBody) actions) = [])
    ∧ (∀ h, handleOf c (run host (initialState tableBody) actions) = some h →
        ∃ inst, liveOn c (run host (initialState tableBody) actions) = [inst] ∧ inst.id = h)
    ∧ (∀ ts, ∃ inst,
        liveOn c (step host (run host (initialState tableBody) actions) (renderAction c ts))
          = [inst]
        ∧ handleOf c
            (step host (run host (initialState tableBody) actions) (renderAction c ts))
          = some inst.id)
    ∧ (∀ ts1 ts2, ∃ inst,
        liveOn c (step host
            (step host (run host (initialState tableBody) actions) (renderAction c ts1))
            (renderAction c ts2)) = [inst]
        ∧ handleOf c (step host
            (step host (run host (initialState tableBody) actions) (renderAction c ts1))
            (renderAction c ts2)) = some inst.id)
    ∧ (∀ more, handleOf c (run host (initialState tableBody) actions) ≠ none →
        handleOf c (run host (run host (initialState tableBody) actions) more) ≠ none) := by
  have hwf : WellFormed (run host (initialState tableBody) actions) :=
    wellFormed_run host actions _ (wellFormed_initialState tableBody)
  have hv := hwf.2.2 c
  unfold ViewOK at hv
  refine ⟨?_, ?_, ?_, ?_, ?_, ?_⟩
  · cases hh : handleOf c (run host (initialState tableBody) actions) with
    | none => rw [hh] at hv; simp [hv]
    | some h =>
      rw [hh] at hv
      obtain ⟨inst, hl, _⟩ := hv
      simp [hl]
  · intro hh
    rw [hh] at hv
    exact hv
  · intro h hh
    rw [hh] at hv
    exact hv
  · intro ts
    exact render_exactly_one host c ts _ hwf
  · intro ts1 ts2
    exact render_exactly_one host c ts2 _ (wellFormed_step host _ _ hwf)
  · intro more hne
    exact handleOf_run_ne_none host c more _ hne

/-- Scenario of claim C6: after the load and one filter action the scatter view has
been rendered twice; its handle is set and exactly one instance is live on it. -/
theorem chart_views_single_instance_scenario :
    handleOf .tripDistanceChart
        (run scenarioHost (initialState [])
          [.load (.json (.array [tripA, tripB, tripC])), .filter "2.0"]) = some 2
    ∧ ∃ inst, liveOn .tripDistanceChart
        (run scenarioHost (initialState [])
          [.load (.json (.array [tripA, tripB, tripC])), .filter "2.0"]) = [inst]
        ∧ inst.id = 2 := by
  have hh : handleOf .tripDistanceChart
      (run scenarioHost (initialState [])
        [.load (.json (.array [tripA, tripB, tripC])), .filter "2.0"]) = some 2 := by
    simp [run, step, loadTrips, onData, filterBtnClick, renderAll_array,
      renderAll_array_thrown, createPassengerCountChart_array,
      createTripDistanceChart_array, handleOf, initialState]
  exact ⟨hh, (chart_views_single_instance scenarioHost []
    [.load (.json (.array [tripA, tripB, tripC])), .filter "2.0"]
    .tripDistanceChart).2.2.1 2 hh⟩

/-! ## Frame of the filter action -/

/-- No renderer assigns `allTrips`. -/
theorem renderers_keep_allTrips (host : Host) (d : JSData) (s : AppState) :
    (populateTable host d s).state.allTrips = s.allTrips
    ∧ (createTripDistanceChart d s).state.allTrips = s.allTrips
    ∧ (createPassengerCountChart d s).state.allTrips = s.allTrips := by
  cases d with
  | array ts =>
    simp [populateTable_array, createTripDistanceChart_array,
      createPassengerCountChart_array]
  | nonArray v =>
    refine ⟨rfl, ?_, ?_⟩
    · simp only [createTripDistanceChart, destroyChart]
      split <;> rfl
    · simp only [createPassengerCountChart, destroyChart]
      split <;> rfl
  | arrayWithNull before rest =>
    refine ⟨?_, ?_, ?_⟩
    · simp [populateTable, foldl_appendRow]
    · simp only [createTripDistanceChart, destroyChart]
      split <;> rfl
    · simp only [createPassengerCountChart, destroyChart]
      split <;> rfl

/-- The click handler does not assign `allTrips`. -/
theorem filterBtnClick_allTrips (host : Host) (value : String) (s : AppState) :
    (filterBtnClick host value s).allTrips = s.allTrips := by
  simp only [filterBtnClick]
  split
  · rfl
  · rfl
  · simp [renderAll_array, createPassengerCountChart_array, createTripDistanceChart_array]

/-- A series of filter actions keeps `allTrips` and the invariant. -/
theorem run_filters (host : Host) (values : List String) (s : AppState) :
    (run host s (values.map Action.filter)).allTrips = s.allTrips
    ∧ (WellFormed s → WellFormed (run host s (values.map Action.filter))) := by
  refine ⟨?_, fun h => wellFormed_run host _ s h⟩
  induction values generalizing s with
  | nil => rfl
  | cons v vs ih =>
    simp only [List.map_cons, run, List.foldl_cons]
    exact (ih (step host s (.filter v))).trans (filterBtnClick_allTrips host v s)

/-- Claim C8. A filter action leaves `allTrips` as it was, whatever the state and the
input; so does each renderer, whatever it is given, and so does any series of filter
actions. After any series of filter actions on a reachable state whose `allTrips`
holds the sequence `S`, the three views show the rows, the scatter points and the
bars of `S` filtered by the last threshold: the earlier thresholds have no influence. -/
theorem filter_frame (host : Host) (value : String) (s : AppState) (d : JSData)
    (tableBody : List String) (actions : List Action) (earlier : List String) :
    (filterBtnClick host value s).allTrips = s.allTrips
    ∧ (populateTable host d s).state.allTrips = s.allTrips
    ∧ (createTripDistanceChart d s).state.allTrips = s.allTrips
    ∧ (createPassengerCountChart d s).state.allTrips = s.allTrips
    ∧ (run host s (earlier.map Action.filter ++ [Action.filter value])).allTrips = s.allTrips
    ∧ (∀ S, (run host (initialState tableBody) actions).allTrips = .array S →
        viewOf (run host (run host (initialState tableBody) actions)
            (earlier.map Action.filter ++ [Action.filter value]))
          = ((filteredTrips (host.parseFloat value) S).map (rowHTML host),
             [.scatter (scatterData (filteredTrips (host.parseFloat value) S))],
             [.bar (objectKeys (passengerCounts (filteredTrips (host.parseFloat value) S)))
                (objectValues
                  (passengerCounts (filteredTrips (host.parseFloat value) S)))])) := by
  have hrun : ∀ s0 : AppState,
      run host s0 (earlier.map Action.filter ++ [Action.filter value])
        = filterBtnClick host value (run host s0 (earlier.map Action.filter)) := by
    intro s0
    simp [run, List.foldl_append, step]
  obtain ⟨h1, h2, h3⟩ := renderers_keep_allTrips host d s
  refine ⟨filterBtnClick_allTrips host value s, h1, h2, h3, ?_, ?_⟩
  · rw [hrun, filterBtnClick_allTrips]
    exact (run_filters host earlier s).1
  · intro S hS
    have hwf : WellFormed (run host (initialState tableBody) actions) :=
      wellFormed_run host actions _ (wellFormed_initialState tableBody)
    have hf := run_filters host earlier (run host (initialState tableBody) actions)
    rw [hrun, filterBtnClick_array host value _ S (hf.1.trans hS)]
    exact (viewOf_renderAll host _ _ (hf.2 hwf)).2

/-- Scenario of claim C8: with the three trips loaded, filtering by an input that is
not a number and then by `2.0` shows the second and third trips, as filtering by `2.0`
alone does. -/
theorem filter_frame_scenario :
    (run scenarioHost (initialState []) [.load (.json (.array [tripA, tripB, tripC]))]).allTrips
      = .array [tripA, tripB, tripC]
    ∧ viewOf (run scenarioHost
          (run scenarioHost (initialState []) [.load (.json (.array [tripA, tripB, tripC]))])
          (["abc"].map Action.filter ++ [Action.filter "2.0"]))
      = ([tripB, tripC].map (rowHTML scenarioHost),
         [.scatter (scatterData [tripB, tripC])],
         [.bar (objectKeys (passengerCounts [tripB, tripC]))
            (objectValues (passengerCounts [tripB, tripC]))]) := by
  have h := (filter_frame scenarioHost "2.0" scenarioState (.array [])
    [] [.load (.json (.array [tripA, tripB, tripC]))] ["abc"]).2.2.2.2.2
    [tripA, tripB, tripC] rfl
  rw [scenario_filteredTrips] at h
  exact ⟨rfl, h⟩

end UrbanMobility
